import Mathlib

/-!
Verification development for the `gemini-live-audio-chat` session/streaming
core (`App.tsx`, `types.ts`).  The PCM codec (`utils/audioUtils`:
`encode`, `decode`, `decodeAudioData`) is not part of the repository
snapshot, so those functions are modelled from the specification; all other
definitions are shallow embeddings of the code in `App.tsx`.
Floating-point times and samples are modelled as rationals.
-/

namespace VoiceChat

/-! ### PCM codec (modelled from the spec, section 4.1) -/

/-- Modelled from the spec: the standard base64 alphabet used by the
base64 wrapping of `encode` / `decode` (the `utils/audioUtils` file is not
in the repository snapshot). -/
def b64Alphabet : List Char :=
  ['A', 'B', 'C', 'D', 'E', 'F', 'G', 'H', 'I', 'J', 'K', 'L', 'M',
   'N', 'O', 'P', 'Q', 'R', 'S', 'T', 'U', 'V', 'W', 'X', 'Y', 'Z',
   'a', 'b', 'c', 'd', 'e', 'f', 'g', 'h', 'i', 'j', 'k', 'l', 'm',
   'n', 'o', 'p', 'q', 'r', 's', 't', 'u', 'v', 'w', 'x', 'y', 'z',
   '0', '1', '2', '3', '4', '5', '6', '7', '8', '9', '+', '/']

/-- Modelled from the spec: the base64 digit for a 6-bit value. -/
def valToChar (v : ℕ) : Char := b64Alphabet.getD v '?'

/-- Modelled from the spec: the 6-bit value of a base64 digit, `none` for a
character outside the alphabet (a malformed payload). -/
def charToVal (c : Char) : Option ℕ := b64Alphabet.findIdx? (fun x => x == c)

/-- Modelled from the spec: base64 encoding of a byte sequence, three bytes
to four digits, with `=` padding. -/
def encodeChunks : List ℕ → List Char
  | [] => []
  | [a] => [valToChar (a / 4), valToChar (a % 4 * 16), '=', '=']
  | [a, b] =>
    [valToChar (a / 4), valToChar (a % 4 * 16 + b / 16), valToChar (b % 16 * 4), '=']
  | a :: b :: c :: rest =>
    valToChar (a / 4) :: valToChar (a % 4 * 16 + b / 16) ::
      valToChar (b % 16 * 4 + c / 64) :: valToChar (c % 64) :: encodeChunks rest

/-- Modelled from the spec: base64 decoding, `none` on any malformed input
(bad length, bad digit, bad padding): the `MalformedPayload` failure. -/
def decodeChunks : List Char → Option (List ℕ)
  | [] => some []
  | c1 :: c2 :: c3 :: c4 :: rest =>
    match charToVal c1, charToVal c2 with
    | some v1, some v2 =>
      if c3 = '=' then
        if c4 = '=' then
          if rest.isEmpty then some [v1 * 4 + v2 / 16] else none
        else none
      else
        match charToVal c3 with
        | some v3 =>
          if c4 = '=' then
            if rest.isEmpty then some [v1 * 4 + v2 / 16, v2 % 16 * 16 + v3 / 4]
            else none
          else
            match charToVal c4 with
            | some v4 =>
              match decodeChunks rest with
              | some bs =>
                some ((v1 * 4 + v2 / 16) :: (v2 % 16 * 16 + v3 / 4) ::
                  (v3 % 4 * 64 + v4) :: bs)
              | none => none
            | none => none
        | none => none
    | _, _ => none
  | _ => none

/-- Modelled from the spec: base64-encode a byte sequence into a string. -/
def b64encode (bs : List ℕ) : String := String.mk (encodeChunks bs)

/-- Modelled from the spec: base64-decode a string into bytes. -/
def b64decode (s : String) : Option (List ℕ) := decodeChunks s.data

/-- Modelled from the spec: quantize one sample, `round(sample * 32767)`
clamped to `[-32768, 32767]`. -/
def quantize (x : ℚ) : ℤ := max (-32768) (min 32767 (round (x * 32767)))

/-- Modelled from the spec: the two little-endian bytes of a signed 16-bit
integer. -/
def int16ToBytes (q : ℤ) : List ℕ :=
  [(q % 65536).toNat % 256, (q % 65536).toNat / 256]

/-- Modelled from the spec: `encode` of `utils/audioUtils` — quantize each
sample to signed 16-bit, pack little-endian, base64-encode. -/
def encode (samples : List ℚ) : String :=
  b64encode (samples.flatMap (fun x => int16ToBytes (quantize x)))

/-- Modelled from the spec: `decode` of `utils/audioUtils` — base64 decode,
failing on a malformed payload. -/
def decode (s : String) : Option (List ℕ) := b64decode s

/-- Modelled from the spec: reassemble a signed 16-bit little-endian sample
from two bytes. -/
def bytesToInt16 (lo hi : ℕ) : ℤ :=
  if lo + 256 * hi < 32768 then (lo + 256 * hi : ℤ)
  else (lo + 256 * hi : ℤ) - 65536

/-- Modelled from the spec: the samples of a little-endian 16-bit byte
sequence, each converted to a float via `value / 32768`. -/
def pairsToSamples : List ℕ → List ℚ
  | lo :: hi :: rest => ((bytesToInt16 lo hi : ℚ) / 32768) :: pairsToSamples rest
  | _ => []

/-- Modelled from the spec: `decodeAudioData` of `utils/audioUtils` — fails
with `InvalidAudioData` unless the byte length is a multiple of
`2 * numChannels`, otherwise converts each 16-bit sample via
`value / 32768` (the mono, `numChannels = 1`, path used by the session). -/
def decodeAudioData (bytes : List ℕ) (_sampleRate : ℕ) (numChannels : ℕ) :
    Except String (List ℚ) :=
  if bytes.length % (2 * numChannels) = 0 then .ok (pairsToSamples bytes)
  else .error "InvalidAudioData"

/-- The full inbound-to-outbound pipeline of spec section 8:
`decodeAudioData (decode (encode s))` at the output profile, `none` when a
stage fails.  `sampleRate` does not affect sample values, only duration. -/
def roundTrip (samples : List ℚ) : Option (List ℚ) :=
  match decode (encode samples) with
  | none => none
  | some bytes =>
    match decodeAudioData bytes 24000 1 with
    | .ok out => some out
    | .error _ => none

/-! ### Playback scheduler (`App.tsx`, `onmessage` audio branch,
lines 150-182, and the refs it closes over) -/

/-- The scheduler state closed over by `onmessage`: `nextStartTimeRef`
(line 21) and `playingSourcesRef` (line 22); handles are identified by a
fresh counter (the code holds object references). -/
structure SchedState where
  nextStartTime : ℚ
  active : List ℕ
  nextId : ℕ
deriving DecidableEq, Repr

/-- Line 153 of `App.tsx`, executed synchronously when the audio message
arrives, before the `await decodeAudioData`:
`nextStartTimeRef.current = Math.max(nextStartTimeRef.current, audioContext.currentTime)`. -/
def audioArrive (s : SchedState) (clockNow : ℚ) : SchedState :=
  { s with nextStartTime := max s.nextStartTime clockNow }

/-- Lines 162-172 of `App.tsx`, executed after the `await decodeAudioData`
resolves: create a source, `source.start(nextStartTimeRef.current)`,
`nextStartTimeRef.current += audioBuffer.duration`, add the source to the
active set.  Returns the new state and the scheduled start time. -/
def audioComplete (s : SchedState) (duration : ℚ) : SchedState × ℚ :=
  ({ s with nextStartTime := s.nextStartTime + duration,
            active := s.active ++ [s.nextId],
            nextId := s.nextId + 1 },
   s.nextStartTime)

/-- One whole audio-chunk enqueue when the message is processed to
completion before the next one (arrival step then completion step). -/
def enqueue (s : SchedState) (duration clockNow : ℚ) : SchedState × ℚ :=
  audioComplete (audioArrive s clockNow) duration

/-- Lines 177-181 of `App.tsx` (the interruption branch; the same stops and
resets happen on session stop, lines 58-61 and 68): stop every active
source, clear the set, reset `nextStartTime` to 0.  Returns the new state
and the list of handles that were stopped. -/
def flush (s : SchedState) : SchedState × List ℕ :=
  ({ s with nextStartTime := 0, active := [] }, s.active)

/-- A run of enqueues (in transport-delivery order, each processed to
completion): the final state and the sequence of scheduled start times.
Each request is a pair (duration, outputClockNow). -/
def runEnq (s : SchedState) : List (ℚ × ℚ) → SchedState × List ℚ
  | [] => (s, [])
  | r :: rest =>
    let p := enqueue s r.1 r.2
    let q := runEnq p.1 rest
    (q.1, p.2 :: q.2)

/-- Closed form of the start-time sequence of `runEnq` as a function of the
initial cursor value. -/
def startsFrom (n : ℚ) : List (ℚ × ℚ) → List ℚ
  | [] => []
  | r :: rest => max n r.2 :: startsFrom (max n r.2 + r.1) rest

/-! ### Session controller state (`App.tsx` component state and refs) -/

/-- `ConversationStatus` from `types.ts`. -/
inductive ConversationStatus where
  | idle
  | listening
  | processing
deriving DecidableEq, Repr

/-- Speaker tag of `TranscriptEntry` from `types.ts` (`'user' | 'gemini'`;
spec section 4.4 calls the second channel `assistant`). -/
inductive Speaker where
  | user
  | gemini
deriving DecidableEq, Repr

/-- `TranscriptEntry` from `types.ts`. -/
structure TranscriptEntry where
  speaker : Speaker
  text : String
deriving DecidableEq, Repr

/-- The whole mutable state of the `App` component (lines 9-22 of
`App.tsx`): React state plus the refs.  Device/transport references are
modelled as held/not-held booleans (`inputCtx` / `outputCtx` mean the
context is non-null and not closed). -/
structure AppState where
  status : ConversationStatus
  transcript : List TranscriptEntry
  error : Option String
  sessionOpen : Bool
  micHeld : Bool
  procHeld : Bool
  inputCtx : Bool
  outputCtx : Bool
  currentInput : String
  currentOutput : String
  sched : SchedState
deriving DecidableEq, Repr

/-- The observable release steps of `stopConversation`, in the order the
code performs them. -/
inductive Action where
  | closeSession
  | stopMicTracks
  | disconnectProcessor
  | closeInputCtx
  | stopSource (id : ℕ)
  | closeOutputCtx
deriving DecidableEq, Repr

/-- `stopConversation` (`App.tsx` lines 30-71): each release step is guarded
by a check that the resource is still held; sources are stopped and cleared
inside the output-context guard; the per-turn buffers and the
`nextStartTime` cursor are reset unconditionally; the status ends `IDLE`
(it passes through `PROCESSING` at entry; only the net effect is modelled).
Errors from `session.close()` are caught and swallowed (lines 38-40).
Returns the new state and the trace of performed release steps. -/
def stopConversation (s : AppState) : AppState × List Action :=
  let p1 := if s.sessionOpen = true then
      (({ s with sessionOpen := false } : AppState), [Action.closeSession])
    else (s, [])
  let p2 := if p1.1.micHeld = true then
      (({ p1.1 with micHeld := false } : AppState), [Action.stopMicTracks])
    else (p1.1, ([] : List Action))
  let p3 := if p2.1.procHeld = true then
      (({ p2.1 with procHeld := false } : AppState), [Action.disconnectProcessor])
    else (p2.1, ([] : List Action))
  let p4 := if p3.1.inputCtx = true then
      (({ p3.1 with inputCtx := false } : AppState), [Action.closeInputCtx])
    else (p3.1, ([] : List Action))
  let p5 := if p4.1.outputCtx = true then
      (({ p4.1 with outputCtx := false,
                    sched := { p4.1.sched with active := [] } } : AppState),
       p4.1.sched.active.map Action.stopSource ++ [Action.closeOutputCtx])
    else (p4.1, ([] : List Action))
  ({ p5.1 with currentInput := "", currentOutput := "",
               sched := { p5.1.sched with nextStartTime := 0 },
               status := ConversationStatus.idle },
   p1.2 ++ p2.2 ++ p3.2 ++ p4.2 ++ p5.2)

/-! ### Inbound message handling (`App.tsx`, `onmessage`, lines 126-183) -/

/-- One inbound `LiveServerMessage`, reduced to the fields `onmessage`
inspects: the two transcription deltas, the turn-complete flag, the inline
audio payload (a base64 string), and the interruption flag. -/
structure ServerMessage where
  outputTranscription : Option String
  inputTranscription : Option String
  turnComplete : Bool
  audioData : Option String
  interrupted : Bool
deriving DecidableEq, Repr

/-- A message with no content, to build concrete messages from. -/
def noMessage : ServerMessage :=
  { outputTranscription := none, inputTranscription := none,
    turnComplete := false, audioData := none, interrupted := false }

/-- Lines 127-133 of `App.tsx`: the `if / else if` over the two
transcription deltas (output takes precedence), appending to the matching
accumulator ref. -/
def transcriptionStep (s : AppState) (m : ServerMessage) : AppState :=
  match m.outputTranscription with
  | some t => { s with currentOutput := s.currentOutput ++ t }
  | none =>
    match m.inputTranscription with
    | some t => { s with currentInput := s.currentInput ++ t }
    | none => s

/-- JavaScript `String.prototype.trim`: strip leading and trailing
whitespace (an executable embedding over the character list). -/
def strTrim (s : String) : String :=
  String.mk
    (((s.data.dropWhile Char.isWhitespace).reverse.dropWhile
        Char.isWhitespace).reverse)

/-- Lines 135-148 of `App.tsx`: on `turnComplete`, trim both accumulators,
append a transcript entry per non-empty trimmed buffer (user first, then
gemini), and clear both accumulators unconditionally. -/
def turnStep (s : AppState) (m : ServerMessage) : AppState :=
  if m.turnComplete = true then
    let fullInput := strTrim s.currentInput
    let fullOutput := strTrim s.currentOutput
    let t1 := if fullInput ≠ "" then
        s.transcript ++ [{ speaker := Speaker.user, text := fullInput }]
      else s.transcript
    let t2 := if fullOutput ≠ "" then
        t1 ++ [{ speaker := Speaker.gemini, text := fullOutput }]
      else t1
    { s with transcript := t2, currentInput := "", currentOutput := "" }
  else s

/-- Lines 155-160 of `App.tsx`: `decodeAudioData (decode audioData) ...` —
`none` when either codec stage throws. -/
def decodeChunk (payload : String) : Option (List ℚ) :=
  match b64decode payload with
  | none => none
  | some bytes =>
    match decodeAudioData bytes 24000 1 with
    | .ok samples => some samples
    | .error _ => none

/-- Lines 175-182 of `App.tsx`: the interruption branch, guarded by the
flag and by the output context being held. -/
def interruptedStep (s : AppState) (m : ServerMessage) : AppState :=
  if m.interrupted = true ∧ s.outputCtx = true then
    { s with sched := (flush s.sched).1 }
  else s

/-- `onmessage` (`App.tsx` lines 126-183).  The transcription and
turn-complete steps run first; if an audio payload is present and the
output context is held, the cursor max-update (line 153) runs, then the
decode; a codec throw aborts the rest of this callback (so the scheduling
and the interruption check of this same message are skipped), without
touching any other state.  `clockNow` is `audioContext.currentTime`. -/
def onmessage (s : AppState) (m : ServerMessage) (clockNow : ℚ) : AppState :=
  let s2 := turnStep (transcriptionStep s m) m
  match m.audioData with
  | none => interruptedStep s2 m
  | some payload =>
    if s2.outputCtx = true then
      let s3 := { s2 with sched := audioArrive s2.sched clockNow }
      match decodeChunk payload with
      | none => s3
      | some samples =>
        interruptedStep
          { s3 with
            sched := (audioComplete s3.sched ((samples.length : ℚ) / 24000)).1 }
          m
    else interruptedStep s2 m

/-! ### Session start and transport error (`App.tsx` lines 73-200, 184-188) -/

/-- The environment outcomes `startConversation` depends on: whether
`process.env.API_KEY` is set, and whether `getUserMedia` succeeds
(`micError = none`) or rejects with a message. -/
structure StartEnv where
  apiKeySet : Bool
  micError : Option String
deriving DecidableEq, Repr

/-- `startConversation` (`App.tsx` lines 73-200), up to the synchronous
acquisition outcome: the not-Idle guard (line 74) returns unchanged; then
status `PROCESSING`, error cleared, transcript cleared (lines 76-78); a
missing API key or a `getUserMedia` rejection is caught by lines 195-199
(`setError(err.message || '...')` then `stopConversation`); on success the
microphone, both contexts and the session promise are acquired
(`onopen` later sets the processor node and the `LISTENING` status). -/
def startConversation (s : AppState) (env : StartEnv) : AppState :=
  if s.status ≠ ConversationStatus.idle then s
  else
    let s1 := { s with status := ConversationStatus.processing,
                       error := none, transcript := [] }
    if env.apiKeySet = false then
      (stopConversation
        { s1 with error := some "API_KEY environment variable not set." }).1
    else
      match env.micError with
      | some msg =>
        (stopConversation
          { s1 with error := some (if msg = "" then "An unexpected error occurred."
                                   else msg) }).1
      | none =>
        { s1 with micHeld := true, inputCtx := true, outputCtx := true,
                  sessionOpen := true }

/-- `onerror` (`App.tsx` lines 184-188): surface
`Connection error: <message>` and tear down via `stopConversation`. -/
def onerror (s : AppState) (msg : String) : AppState :=
  (stopConversation { s with error := some ("Connection error: " ++ msg) }).1

/-! ### Concrete states and messages used in closed statements -/

/-- A fully idle component state: nothing held, everything empty. -/
def exampleIdle : AppState :=
  { status := ConversationStatus.idle, transcript := [], error := none,
    sessionOpen := false, micHeld := false, procHeld := false,
    inputCtx := false, outputCtx := false, currentInput := "",
    currentOutput := "", sched := ⟨0, [], 0⟩ }

/-- A mid-session state: every resource held, two sources playing, the
cursor at 2 seconds. -/
def exampleActive : AppState :=
  { status := ConversationStatus.listening, transcript := [], error := none,
    sessionOpen := true, micHeld := true, procHeld := true,
    inputCtx := true, outputCtx := true, currentInput := "",
    currentOutput := "", sched := ⟨2, [5, 6], 7⟩ }

/-- A mid-session state with pending buffers and a prior transcript entry,
used to exercise the teardown trace. -/
def fullHeld : AppState :=
  { status := ConversationStatus.listening,
    transcript := [{ speaker := Speaker.user, text := "x" }], error := none,
    sessionOpen := true, micHeld := true, procHeld := true,
    inputCtx := true, outputCtx := true, currentInput := "a",
    currentOutput := "b", sched := ⟨2, [5, 6], 7⟩ }

/-- A message whose audio payload is not valid base64. -/
def badAudioMsg : ServerMessage := { noMessage with audioData := some "!!!!" }

/-- An interruption signal. -/
def interruptMsg : ServerMessage := { noMessage with interrupted := true }

/-- A turn-completion signal. -/
def turnDoneMsg : ServerMessage := { noMessage with turnComplete := true }

/-- User fragment "hel". -/
def fragUser1 : ServerMessage := { noMessage with inputTranscription := some "hel" }

/-- User fragment "lo". -/
def fragUser2 : ServerMessage := { noMessage with inputTranscription := some "lo" }

/-- Assistant fragment "hi". -/
def fragAssistant : ServerMessage :=
  { noMessage with outputTranscription := some "hi" }

/-! ### Frame lemmas for the `onmessage` steps -/

@[simp] lemma transcriptionStep_status (s : AppState) (m : ServerMessage) :
    (transcriptionStep s m).status = s.status := by
  unfold transcriptionStep
  cases hmo : m.outputTranscription with
  | some a => rfl
  | none => cases hmi : m.inputTranscription with
    | some a => rfl
    | none => rfl

@[simp] lemma transcriptionStep_transcript (s : AppState) (m : ServerMessage) :
    (transcriptionStep s m).transcript = s.transcript := by
  unfold transcriptionStep
  cases hmo : m.outputTranscription with
  | some a => rfl
  | none => cases hmi : m.inputTranscription with
    | some a => rfl
    | none => rfl

@[simp] lemma transcriptionStep_error (s : AppState) (m : ServerMessage) :
    (transcriptionStep s m).error = s.error := by
  unfold transcriptionStep
  cases hmo : m.outputTranscription with
  | some a => rfl
  | none => cases hmi : m.inputTranscription with
    | some a => rfl
    | none => rfl

@[simp] lemma transcriptionStep_sessionOpen (s : AppState) (m : ServerMessage) :
    (transcriptionStep s m).sessionOpen = s.sessionOpen := by
  unfold transcriptionStep
  cases hmo : m.outputTranscription with
  | some a => rfl
  | none => cases hmi : m.inputTranscription with
    | some a => rfl
    | none => rfl

@[simp] lemma transcriptionStep_micHeld (s : AppState) (m : ServerMessage) :
    (transcriptionStep s m).micHeld = s.micHeld := by
  unfold transcriptionStep
  cases hmo : m.outputTranscription with
  | some a => rfl
  | none => cases hmi : m.inputTranscription with
    | some a => rfl
    | none => rfl

@[simp] lemma transcriptionStep_procHeld (s : AppState) (m : ServerMessage) :
    (transcriptionStep s m).procHeld = s.procHeld := by
  unfold transcriptionStep
  cases hmo : m.outputTranscription with
  | some a => rfl
  | none => cases hmi : m.inputTranscription with
    | some a => rfl
    | none => rfl

@[simp] lemma transcriptionStep_inputCtx (s : AppState) (m : ServerMessage) :
    (transcriptionStep s m).inputCtx = s.inputCtx := by
  unfold transcriptionStep
  cases hmo : m.outputTranscription with
  | some a => rfl
  | none => cases hmi : m.inputTranscription with
    | some a => rfl
    | none => rfl

@[simp] lemma transcriptionStep_outputCtx (s : AppState) (m : ServerMessage) :
    (transcriptionStep s m).outputCtx = s.outputCtx := by
  unfold transcriptionStep
  cases hmo : m.outputTranscription with
  | some a => rfl
  | none => cases hmi : m.inputTranscription with
    | some a => rfl
    | none => rfl

@[simp] lemma transcriptionStep_sched (s : AppState) (m : ServerMessage) :
    (transcriptionStep s m).sched = s.sched := by
  unfold transcriptionStep
  cases hmo : m.outputTranscription with
  | some a => rfl
  | none => cases hmi : m.inputTranscription with
    | some a => rfl
    | none => rfl

@[simp] lemma turnStep_status (s : AppState) (m : ServerMessage) :
    (turnStep s m).status = s.status := by
  unfold turnStep; split <;> rfl

@[simp] lemma turnStep_error (s : AppState) (m : ServerMessage) :
    (turnStep s m).error = s.error := by
  unfold turnStep; split <;> rfl

@[simp] lemma turnStep_sessionOpen (s : AppState) (m : ServerMessage) :
    (turnStep s m).sessionOpen = s.sessionOpen := by
  unfold turnStep; split <;> rfl

@[simp] lemma turnStep_micHeld (s : AppState) (m : ServerMessage) :
    (turnStep s m).micHeld = s.micHeld := by
  unfold turnStep; split <;> rfl

@[simp] lemma turnStep_procHeld (s : AppState) (m : ServerMessage) :
    (turnStep s m).procHeld = s.procHeld := by
  unfold turnStep; split <;> rfl

@[simp] lemma turnStep_inputCtx (s : AppState) (m : ServerMessage) :
    (turnStep s m).inputCtx = s.inputCtx := by
  unfold turnStep; split <;> rfl

@[simp] lemma turnStep_outputCtx (s : AppState) (m : ServerMessage) :
    (turnStep s m).outputCtx = s.outputCtx := by
  unfold turnStep; split <;> rfl

@[simp] lemma turnStep_sched (s : AppState) (m : ServerMessage) :
    (turnStep s m).sched = s.sched := by
  unfold turnStep; split <;> rfl

@[simp] lemma interruptedStep_status (s : AppState) (m : ServerMessage) :
    (interruptedStep s m).status = s.status := by
  unfold interruptedStep; split <;> rfl

@[simp] lemma interruptedStep_transcript (s : AppState) (m : ServerMessage) :
    (interruptedStep s m).transcript = s.transcript := by
  unfold interruptedStep; split <;> rfl

@[simp] lemma interruptedStep_error (s : AppState) (m : ServerMessage) :
    (interruptedStep s m).error = s.error := by
  unfold interruptedStep; split <;> rfl

@[simp] lemma interruptedStep_sessionOpen (s : AppState) (m : ServerMessage) :
    (interruptedStep s m).sessionOpen = s.sessionOpen := by
  unfold interruptedStep; split <;> rfl

@[simp] lemma interruptedStep_micHeld (s : AppState) (m : ServerMessage) :
    (interruptedStep s m).micHeld = s.micHeld := by
  unfold interruptedStep; split <;> rfl

@[simp] lemma interruptedStep_procHeld (s : AppState) (m : ServerMessage) :
    (interruptedStep s m).procHeld = s.procHeld := by
  unfold interruptedStep; split <;> rfl

@[simp] lemma interruptedStep_inputCtx (s : AppState) (m : ServerMessage) :
    (interruptedStep s m).inputCtx = s.inputCtx := by
  unfold interruptedStep; split <;> rfl

@[simp] lemma interruptedStep_outputCtx (s : AppState) (m : ServerMessage) :
    (interruptedStep s m).outputCtx = s.outputCtx := by
  unfold interruptedStep; split <;> rfl

@[simp] lemma interruptedStep_currentInput (s : AppState) (m : ServerMessage) :
    (interruptedStep s m).currentInput = s.currentInput := by
  unfold interruptedStep; split <;> rfl

@[simp] lemma interruptedStep_currentOutput (s : AppState) (m : ServerMessage) :
    (interruptedStep s m).currentOutput = s.currentOutput := by
  unfold interruptedStep; split <;> rfl

@[simp] lemma interruptedStep_nextId (s : AppState) (m : ServerMessage) :
    (interruptedStep s m).sched.nextId = s.sched.nextId := by
  unfold interruptedStep flush; split <;> rfl

/-- `onmessage` only ever writes the scheduler refs beyond what the
transcription and turn steps write: status, error and every resource flag
are untouched, and transcript and accumulator buffers are exactly those of
the turn step. -/
theorem onmessage_nonsched (s : AppState) (m : ServerMessage) (t : ℚ) :
    (onmessage s m t).status = s.status ∧
    (onmessage s m t).error = s.error ∧
    (onmessage s m t).sessionOpen = s.sessionOpen ∧
    (onmessage s m t).micHeld = s.micHeld ∧
    (onmessage s m t).procHeld = s.procHeld ∧
    (onmessage s m t).inputCtx = s.inputCtx ∧
    (onmessage s m t).outputCtx = s.outputCtx ∧
    (onmessage s m t).transcript = (turnStep (transcriptionStep s m) m).transcript ∧
    (onmessage s m t).currentInput = (turnStep (transcriptionStep s m) m).currentInput ∧
    (onmessage s m t).currentOutput = (turnStep (transcriptionStep s m) m).currentOutput := by
  unfold onmessage
  cases hma : m.audioData with
  | none => simp
  | some payload =>
    dsimp only
    by_cases hoc : (turnStep (transcriptionStep s m) m).outputCtx = true
    · rw [if_pos hoc]
      cases hdc : decodeChunk payload with
      | none => simp
      | some samples => simp
    · rw [if_neg hoc]
      simp

/-! ### Teardown lemmas -/

/-- Closed form of `stopConversation`: every resource reference ends
released, the per-turn buffers and cursor end reset, the status ends
`Idle`, the transcript and the error are untouched, and the trace is the
concatenation of the guarded release steps in the code's fixed order. -/
theorem stop_eq (s : AppState) :
    stopConversation s =
      ({ status := ConversationStatus.idle, transcript := s.transcript,
         error := s.error, sessionOpen := false, micHeld := false,
         procHeld := false, inputCtx := false, outputCtx := false,
         currentInput := "", currentOutput := "",
         sched := { nextStartTime := 0,
                    active := if s.outputCtx = true then [] else s.sched.active,
                    nextId := s.sched.nextId } },
       (if s.sessionOpen = true then [Action.closeSession] else []) ++
         (if s.micHeld = true then [Action.stopMicTracks] else []) ++
         (if s.procHeld = true then [Action.disconnectProcessor] else []) ++
         (if s.inputCtx = true then [Action.closeInputCtx] else []) ++
         (if s.outputCtx = true then
            s.sched.active.map Action.stopSource ++ [Action.closeOutputCtx]
          else [])) := by
  unfold stopConversation
  cases h1 : s.sessionOpen <;> cases h2 : s.micHeld <;> cases h3 : s.procHeld <;>
    cases h4 : s.inputCtx <;> cases h5 : s.outputCtx <;> simp [h1, h2, h3, h4, h5]

/-- A guarded segment is a sublist of its unguarded form. -/
theorem if_sublist {α : Type} (b : Bool) (l : List α) :
    List.Sublist (if b = true then l else []) l := by
  cases b
  · simp
  · simp

/-! ### Scheduler lemmas -/

/-- The start times of a run of enqueues, in closed form. -/
theorem runEnq_snd (reqs : List (ℚ × ℚ)) :
    ∀ s : SchedState, (runEnq s reqs).2 = startsFrom s.nextStartTime reqs := by
  induction reqs with
  | nil => intro s; rfl
  | cons r rest ih =>
    intro s
    simp only [runEnq, startsFrom, ih, enqueue, audioArrive, audioComplete]

/-- Consecutive start times: the next start is the previous start plus the
previous duration, max-ed with the next chunk's clock reading. -/
theorem startsFrom_getD_succ (reqs : List (ℚ × ℚ)) :
    ∀ (n : ℚ) (i : ℕ), i + 1 < reqs.length →
      (startsFrom n reqs).getD (i + 1) 0 =
        max ((startsFrom n reqs).getD i 0 + (reqs.getD i (0, 0)).1)
          ((reqs.getD (i + 1) (0, 0)).2) := by
  induction reqs with
  | nil => intro n i h; simp at h
  | cons r rest ih =>
    intro n i h
    cases i with
    | zero =>
      cases rest with
      | nil => simp at h
      | cons r' rest' => simp [startsFrom]
    | succ j =>
      have hj : j + 1 < rest.length := by
        simpa [Nat.succ_lt_succ_iff] using h
      simpa [startsFrom, List.getD_cons_succ] using ih (max n r.2 + r.1) j hj

/-- With non-negative durations the start-time sequence is non-decreasing. -/
theorem startsFrom_chain (reqs : List (ℚ × ℚ)) :
    ∀ n : ℚ, (∀ r ∈ reqs, 0 ≤ r.1) →
      List.Chain' (fun a b => a ≤ b) (startsFrom n reqs) := by
  induction reqs with
  | nil => intro n _; simp [startsFrom]
  | cons r rest ih =>
    intro n hd
    cases rest with
    | nil => simp [startsFrom]
    | cons r' rest' =>
      refine List.chain'_cons.mpr ⟨?_, ?_⟩
      · have h1 : 0 ≤ r.1 := hd r (by simp)
        have : max n r.2 ≤ max n r.2 + r.1 := by linarith
        exact le_trans this (le_max_left _ _)
      · exact ih (max n r.2 + r.1) (fun x hx => hd x (by simp [hx]))

/-! ### Claim C1 -/

/-- C1 is refuted on this concrete run: two enqueues from a reset cursor,
the second arriving when the output clock (5) is already past the end of
the first chunk (0 + 1); the scheduled starts are [0, 5], so the second
start is not the first start plus the first duration.  Moreover the
arrival-time step (line 153) leaves the cursor at `max nextStartTime now`;
the advance by the chunk's duration only happens at decode completion
(line 171), as the decomposition of `enqueue` shows. -/
theorem enqueue_gapless_counterexample :
    (runEnq ⟨0, [], 0⟩ [((1 : ℚ), (0 : ℚ)), (1, 5)]).2 = [0, 5] ∧
    ¬ ((5 : ℚ) = 0 + 1) ∧
    enqueue ⟨0, [], 0⟩ 1 0 = audioComplete (audioArrive ⟨0, [], 0⟩ 0) 1 ∧
    (audioArrive ⟨0, [], 0⟩ 0).nextStartTime ≠
      (enqueue ⟨0, [], 0⟩ 1 0).1.nextStartTime := by
  refine ⟨?_, by norm_num, rfl, ?_⟩
  · rw [runEnq_snd]
    simp only [startsFrom, max_self]
    norm_num
  · simp only [audioArrive, enqueue, audioComplete, max_self]
    norm_num

/-- C1 (amended): for every run of enqueues between resets with
non-negative durations, the scheduled start times are non-decreasing; each
next start equals the previous start plus the previous duration, max-ed
with the new chunk's clock reading — so playback is gapless exactly when
the chunk arrives no later than the previous chunk's scheduled end, and in
no case do consecutive chunks overlap.  The cursor's max-update happens at
message arrival (`audioArrive`), while the advance by the chunk's duration
happens at decode completion (`audioComplete`). -/
theorem enqueue_monotone_gapless (s : SchedState) (reqs : List (ℚ × ℚ))
    (hd : ∀ r ∈ reqs, 0 ≤ r.1) :
    List.Chain' (fun a b => a ≤ b) ((runEnq s reqs).2) ∧
    (∀ i : ℕ, i + 1 < reqs.length →
      ((runEnq s reqs).2.getD (i + 1) 0 =
          max ((runEnq s reqs).2.getD i 0 + (reqs.getD i (0, 0)).1)
            ((reqs.getD (i + 1) (0, 0)).2) ∧
        (runEnq s reqs).2.getD i 0 + (reqs.getD i (0, 0)).1 ≤
          (runEnq s reqs).2.getD (i + 1) 0 ∧
        ((reqs.getD (i + 1) (0, 0)).2 ≤
            (runEnq s reqs).2.getD i 0 + (reqs.getD i (0, 0)).1 →
          (runEnq s reqs).2.getD (i + 1) 0 =
            (runEnq s reqs).2.getD i 0 + (reqs.getD i (0, 0)).1))) ∧
    (∀ d t : ℚ, enqueue s d t = audioComplete (audioArrive s t) d ∧
      (audioArrive s t).nextStartTime = max s.nextStartTime t) := by
  refine ⟨?_, ?_, fun d t => ⟨rfl, rfl⟩⟩
  · rw [runEnq_snd]
    exact startsFrom_chain reqs s.nextStartTime hd
  · intro i h
    rw [runEnq_snd]
    have hmax := startsFrom_getD_succ reqs s.nextStartTime i h
    refine ⟨hmax, ?_, ?_⟩
    · rw [hmax]; exact le_max_left _ _
    · intro hle; rw [hmax]; exact max_eq_left hle

/-- Witness for C1 (amended): a concrete two-chunk run with non-negative
durations satisfies the hypotheses, and its start times are
non-decreasing. -/
theorem enqueue_monotone_gapless_witness :
    (∀ r ∈ [((1 : ℚ), (0 : ℚ)), (1, 2)], 0 ≤ r.1) ∧
    List.Chain' (fun a b => a ≤ b)
      ((runEnq ⟨0, [], 0⟩ [((1 : ℚ), (0 : ℚ)), (1, 2)]).2) :=
  ⟨by rintro r hr; fin_cases hr <;> norm_num,
   (enqueue_monotone_gapless ⟨0, [], 0⟩ [((1 : ℚ), (0 : ℚ)), (1, 2)]
     (by rintro r hr; fin_cases hr <;> norm_num)).1⟩

/-! ### Claim C2 -/

@[simp] lemma audioArrive_active (sc : SchedState) (t : ℚ) :
    (audioArrive sc t).active = sc.active := rfl

@[simp] lemma audioArrive_nextId (sc : SchedState) (t : ℚ) :
    (audioArrive sc t).nextId = sc.nextId := rfl

@[simp] lemma audioArrive_nextStartTime (sc : SchedState) (t : ℚ) :
    (audioArrive sc t).nextStartTime = max sc.nextStartTime t := rfl

/-- Shape of `onmessage` when the codec throws on the inbound chunk: the
callback stops right after the arrival-time cursor update, so the
turn/transcription effects stand, the cursor max-update stands, and
nothing else of this message (scheduling, interruption check) runs. -/
theorem onmessage_decode_fail (s : AppState) (m : ServerMessage) (t : ℚ)
    (p : String) (hp : m.audioData = some p) (hfail : decodeChunk p = none) :
    onmessage s m t =
      (if (turnStep (transcriptionStep s m) m).outputCtx = true then
        { turnStep (transcriptionStep s m) m with
          sched := audioArrive (turnStep (transcriptionStep s m) m).sched t }
      else turnStep (transcriptionStep s m) m) := by
  unfold onmessage
  simp only [hp]
  by_cases hoc : (turnStep (transcriptionStep s m) m).outputCtx = true
  · rw [if_pos hoc, if_pos hoc]
    simp [hfail]
  · rw [if_neg hoc, if_neg hoc]
    unfold interruptedStep
    rw [if_neg]
    intro hc
    exact hoc hc.2

/-- C2 is refuted on a concrete run: a malformed chunk (`"!!!!"` is not
base64) arriving at output-clock time 5 with the cursor at 2 does change
session state beyond dropping the chunk — the cursor is raised to 5. -/
theorem codec_error_locality_counterexample :
    decodeChunk "!!!!" = none ∧
    badAudioMsg.audioData = some "!!!!" ∧
    exampleActive.sched.nextStartTime = 2 ∧
    (onmessage exampleActive badAudioMsg 5).sched.nextStartTime = 5 := by
  have hdc : decodeChunk "!!!!" = none := by decide
  refine ⟨hdc, rfl, rfl, ?_⟩
  rw [onmessage_decode_fail exampleActive badAudioMsg 5 "!!!!" rfl hdc]
  norm_num [exampleActive, badAudioMsg, noMessage, turnStep, transcriptionStep]

/-- C2 (amended): a codec failure on one inbound chunk is local — the
session is not aborted (status, error, every resource flag unchanged), no
source is scheduled (active set and id counter unchanged), the transcript
still reflects the transcription/turn handling that precedes the decode,
and the only scheduler effect is the arrival-time cursor max-update (the
interruption flag of that same message is skipped). -/
theorem codec_error_locality (s : AppState) (m : ServerMessage) (t : ℚ)
    (p : String) (hp : m.audioData = some p) (hfail : decodeChunk p = none) :
    (onmessage s m t).status = s.status ∧
    (onmessage s m t).error = s.error ∧
    (onmessage s m t).sessionOpen = s.sessionOpen ∧
    (onmessage s m t).micHeld = s.micHeld ∧
    (onmessage s m t).procHeld = s.procHeld ∧
    (onmessage s m t).inputCtx = s.inputCtx ∧
    (onmessage s m t).outputCtx = s.outputCtx ∧
    (onmessage s m t).transcript =
      (turnStep (transcriptionStep s m) m).transcript ∧
    (onmessage s m t).sched.active = s.sched.active ∧
    (onmessage s m t).sched.nextId = s.sched.nextId ∧
    (onmessage s m t).sched.nextStartTime =
      (if s.outputCtx = true then max s.sched.nextStartTime t
       else s.sched.nextStartTime) := by
  rw [onmessage_decode_fail s m t p hp hfail]
  by_cases hoc : (turnStep (transcriptionStep s m) m).outputCtx = true
  · have hctx : s.outputCtx = true := by simpa using hoc
    rw [if_pos hoc]
    simp [hctx]
  · have hctx : s.outputCtx = false := by
      have := hoc
      simp only [turnStep_outputCtx, transcriptionStep_outputCtx] at this
      exact Bool.not_eq_true _ |>.mp this
    rw [if_neg hoc]
    simp [hctx]

/-- Witness for C2 (amended): the concrete malformed chunk leaves status,
error and the active set of the mid-session state unchanged. -/
theorem codec_error_locality_witness :
    badAudioMsg.audioData = some "!!!!" ∧
    (onmessage exampleActive badAudioMsg 5).status = exampleActive.status :=
  ⟨rfl, (codec_error_locality exampleActive badAudioMsg 5 "!!!!" rfl
    (by decide)).1⟩

/-! ### Claim C3 -/

/-- C3: after a flush — reached from an interruption signal while the
output context is held, and (for the stops and the cursor reset) from
session stop — every handle of the active set has been stopped, the active
set is empty and the cursor is 0, from any prior state; and the next
enqueue after a flush starts at `max 0 outputClockNow`. -/
theorem flush_completeness (sc : SchedState) (d t : ℚ) (s : AppState)
    (m : ServerMessage) :
    (flush sc).1.active = [] ∧
    (flush sc).1.nextStartTime = 0 ∧
    (flush sc).2 = sc.active ∧
    (enqueue (flush sc).1 d t).2 = max 0 t ∧
    (m.interrupted = true → m.audioData = none → s.outputCtx = true →
      (onmessage s m t).sched.active = [] ∧
      (onmessage s m t).sched.nextStartTime = 0) ∧
    (stopConversation s).1.sched.nextStartTime = 0 := by
  refine ⟨rfl, rfl, rfl, rfl, ?_, ?_⟩
  · intro h1 h2 h3
    have hctx : (turnStep (transcriptionStep s m) m).outputCtx = true := by
      simp [h3]
    unfold onmessage
    simp only [h2]
    unfold interruptedStep
    rw [if_pos ⟨h1, hctx⟩]
    exact ⟨rfl, rfl⟩
  · rw [stop_eq]

/-- Witness for C3: a concrete interruption while two sources play stops
them all and resets the cursor. -/
theorem flush_completeness_witness :
    (interruptMsg.interrupted = true ∧ interruptMsg.audioData = none ∧
      exampleActive.outputCtx = true) ∧
    ((onmessage exampleActive interruptMsg 3).sched.active = [] ∧
      (onmessage exampleActive interruptMsg 3).sched.nextStartTime = 0) :=
  ⟨⟨rfl, rfl, rfl⟩,
   (flush_completeness ⟨0, [], 0⟩ 0 3 exampleActive interruptMsg).2.2.2.2.1
     rfl rfl rfl⟩

/-! ### Claim C4 -/

/-- On a turn-completion signal both accumulator buffers end empty,
whatever they held. -/
theorem turnStep_clears (s : AppState) (m : ServerMessage)
    (hm : m.turnComplete = true) :
    (turnStep s m).currentInput = "" ∧ (turnStep s m).currentOutput = "" := by
  unfold turnStep
  rw [if_pos hm]
  exact ⟨rfl, rfl⟩

/-- A turn completion with both buffers trim-empty appends nothing. -/
theorem turnStep_empty (s : AppState) (m : ServerMessage)
    (hm : m.turnComplete = true) (hi : strTrim s.currentInput = "")
    (ho : strTrim s.currentOutput = "") :
    (turnStep s m).transcript = s.transcript := by
  unfold turnStep
  rw [if_pos hm]
  dsimp only
  rw [hi, ho]
  simp

/-- A message with neither transcription delta leaves the accumulators as
they are. -/
theorem transcriptionStep_none (s : AppState) (m : ServerMessage)
    (ho : m.outputTranscription = none) (hi : m.inputTranscription = none) :
    transcriptionStep s m = s := by
  unfold transcriptionStep
  simp only [ho, hi]

/-- C4: the fragment run user:"hel", user:"lo", assistant:"hi" followed by
a turn-completion signal yields exactly the two entries user:"hello" then
gemini:"hi" and empties both buffers; a turn completion on empty buffers
appends nothing; and, on any turn-completion message, both buffers end
empty unconditionally. -/
theorem completeTurn_behavior :
    ((onmessage (onmessage (onmessage (onmessage exampleIdle fragUser1 0)
          fragUser2 0) fragAssistant 0) turnDoneMsg 0).transcript =
        [{ speaker := Speaker.user, text := "hello" },
         { speaker := Speaker.gemini, text := "hi" }] ∧
      (onmessage (onmessage (onmessage (onmessage exampleIdle fragUser1 0)
          fragUser2 0) fragAssistant 0) turnDoneMsg 0).currentInput = "" ∧
      (onmessage (onmessage (onmessage (onmessage exampleIdle fragUser1 0)
          fragUser2 0) fragAssistant 0) turnDoneMsg 0).currentOutput = "") ∧
    (onmessage exampleIdle turnDoneMsg 0).transcript = [] ∧
    (∀ (s : AppState) (m : ServerMessage) (t : ℚ), m.turnComplete = true →
      (onmessage s m t).currentInput = "" ∧
      (onmessage s m t).currentOutput = "") ∧
    (∀ (s : AppState) (m : ServerMessage) (t : ℚ), m.turnComplete = true →
      m.outputTranscription = none → m.inputTranscription = none →
      strTrim s.currentInput = "" → strTrim s.currentOutput = "" →
      (onmessage s m t).transcript = s.transcript) := by
  refine ⟨by decide, by decide, ?_, ?_⟩
  · intro s m t hm
    obtain ⟨_, _, _, _, _, _, _, _, h9, h10⟩ := onmessage_nonsched s m t
    rw [h9, h10]
    exact turnStep_clears (transcriptionStep s m) m hm
  · intro s m t hm hmo hmi hi ho
    obtain ⟨_, _, _, _, _, _, _, h8, _, _⟩ := onmessage_nonsched s m t
    rw [h8, transcriptionStep_none s m hmo hmi, turnStep_empty s m hm hi ho]

/-- Witness for C4: the unconditional-clearing conjunct at a concrete
mid-session state. -/
theorem completeTurn_behavior_witness :
    turnDoneMsg.turnComplete = true ∧
    ((onmessage exampleActive turnDoneMsg 0).currentInput = "" ∧
      (onmessage exampleActive turnDoneMsg 0).currentOutput = "") :=
  ⟨rfl, completeTurn_behavior.2.2.1 exampleActive turnDoneMsg 0 rfl⟩

/-! ### Claim C5 -/

/-- C5: teardown performs the release steps in the code's fixed order —
close transport session, stop microphone tracks, disconnect the processing
node, close the input context, stop every playing source, close the output
context (each step only if the resource is held, so the trace of any state
is an order-preserving sublist of the full trace) — then resets both
accumulator buffers and the cursor, ending `Idle` with no resource held and
the durable transcript intact.  On the fully-held state the trace is
exactly the full fixed order. -/
theorem stop_teardown_order (s : AppState) :
    (stopConversation s).1.sessionOpen = false ∧
    (stopConversation s).1.micHeld = false ∧
    (stopConversation s).1.procHeld = false ∧
    (stopConversation s).1.inputCtx = false ∧
    (stopConversation s).1.outputCtx = false ∧
    (stopConversation s).1.currentInput = "" ∧
    (stopConversation s).1.currentOutput = "" ∧
    (stopConversation s).1.sched.nextStartTime = 0 ∧
    (stopConversation s).1.status = ConversationStatus.idle ∧
    (stopConversation s).1.transcript = s.transcript ∧
    List.Sublist (stopConversation s).2
      ([Action.closeSession, Action.stopMicTracks, Action.disconnectProcessor,
        Action.closeInputCtx] ++ s.sched.active.map Action.stopSource ++
        [Action.closeOutputCtx]) ∧
    stopConversation fullHeld =
      ({ status := ConversationStatus.idle,
         transcript := [{ speaker := Speaker.user, text := "x" }],
         error := none, sessionOpen := false, micHeld := false,
         procHeld := false, inputCtx := false, outputCtx := false,
         currentInput := "", currentOutput := "", sched := ⟨0, [], 7⟩ },
       [Action.closeSession, Action.stopMicTracks, Action.disconnectProcessor,
        Action.closeInputCtx, Action.stopSource 5, Action.stopSource 6,
        Action.closeOutputCtx]) := by
  rw [stop_eq]
  refine ⟨rfl, rfl, rfl, rfl, rfl, rfl, rfl, rfl, rfl, rfl, ?_, ?_⟩
  · show List.Sublist _
      (([Action.closeSession] ++ [Action.stopMicTracks] ++
          [Action.disconnectProcessor] ++ [Action.closeInputCtx]) ++
        (s.sched.active.map Action.stopSource ++ [Action.closeOutputCtx]))
    exact List.Sublist.append
      (List.Sublist.append
        (List.Sublist.append
          (List.Sublist.append (if_sublist _ _) (if_sublist _ _))
          (if_sublist _ _))
        (if_sublist _ _))
      (if_sublist _ _)
  · rw [stop_eq]
    simp [fullHeld]

/-! ### Claim C6 -/

/-- C6: `stopConversation` is idempotent — a second invocation from the
already-released state it produces performs no release step at all (every
guard finds its resource already cleared) and leaves the state exactly as
it was. -/
theorem stop_idempotent (s : AppState) :
    stopConversation (stopConversation s).1 =
      ((stopConversation s).1, ([] : List Action)) := by
  simp [stop_eq]

/-! ### Claim C7 -/

/-- C7: `startConversation` invoked while the status is not `Idle` is a
silent no-op — the state (so also the transcript, the error message and
every resource flag) is returned unchanged and nothing is acquired. -/
theorem start_guard (s : AppState) (env : StartEnv)
    (h : s.status ≠ ConversationStatus.idle) :
    startConversation s env = s := by
  unfold startConversation
  rw [if_pos h]

/-- Witness for C7: starting during an active session changes nothing. -/
theorem start_guard_witness :
    exampleActive.status ≠ ConversationStatus.idle ∧
    startConversation exampleActive ⟨true, none⟩ = exampleActive :=
  ⟨by decide, start_guard exampleActive ⟨true, none⟩ (by decide)⟩

/-! ### Claim C10 -/

/-- C10: every `startConversation` from `Idle` resets the durable
transcript to empty on all outcomes (the reset happens before any
acquisition, and the failure teardown preserves it), clears any prior
error message (left `none` on the success path), while `stopConversation`
never touches the transcript — so entries survive stops and aborts but
never a subsequent start. -/
theorem start_resets_transcript (s : AppState) (env : StartEnv)
    (h : s.status = ConversationStatus.idle) :
    (startConversation s env).transcript = [] ∧
    (env.apiKeySet = true → env.micError = none →
      (startConversation s env).error = none) ∧
    (∀ s' : AppState, (stopConversation s').1.transcript = s'.transcript) := by
  have hguard : ¬ s.status ≠ ConversationStatus.idle := by simp [h]
  refine ⟨?_, ?_, fun s' => by rw [stop_eq]⟩
  · unfold startConversation
    rw [if_neg hguard]
    cases hk : env.apiKeySet
    · simp [stop_eq]
    · cases hm : env.micError
      · simp
      · simp [stop_eq]
  · intro hk hm
    unfold startConversation
    rw [if_neg hguard]
    simp [hk, hm]

/-- Witness for C10: a successful start from the idle state leaves an
empty transcript. -/
theorem start_resets_transcript_witness :
    exampleIdle.status = ConversationStatus.idle ∧
    (startConversation exampleIdle ⟨true, none⟩).transcript = [] :=
  ⟨rfl, (start_resets_transcript exampleIdle ⟨true, none⟩ rfl).1⟩

/-! ### Claim C8 -/

/-- C8: any abort surfaces a human-readable message and returns to `Idle`
with prior transcript entries intact — a transport error, from any state
`s` whatsoever (in particular mid-session `Active`/`Connecting` states),
sets `Connection error: <message>` and tears down preserving the
transcript; an acquisition failure (here: missing API key) on a start from
an idle state `s'` sets the corresponding message and likewise ends
`Idle`. -/
theorem abort_surfaces_error (s s' : AppState) (msg : String) (env : StartEnv)
    (hidle : s'.status = ConversationStatus.idle)
    (hkey : env.apiKeySet = false) :
    (onerror s msg).error = some ("Connection error: " ++ msg) ∧
    (onerror s msg).status = ConversationStatus.idle ∧
    (onerror s msg).transcript = s.transcript ∧
    (startConversation s' env).error =
      some "API_KEY environment variable not set." ∧
    (startConversation s' env).status = ConversationStatus.idle := by
  have hguard : ¬ s'.status ≠ ConversationStatus.idle := by simp [hidle]
  refine ⟨?_, ?_, ?_, ?_, ?_⟩
  · unfold onerror; rw [stop_eq]
  · unfold onerror; rw [stop_eq]
  · unfold onerror; rw [stop_eq]
  · unfold startConversation
    rw [if_neg hguard]
    simp [hkey, stop_eq]
  · unfold startConversation
    rw [if_neg hguard]
    simp [hkey, stop_eq]

/-- Witness for C8: a transport error on the mid-session `fullHeld` state
(status `listening`, one prior transcript entry) surfaces the message,
returns to idle, and keeps that entry intact; the acquisition-failure
hypotheses are discharged at a concrete idle state and key-less
environment. -/
theorem abort_surfaces_error_witness :
    (exampleIdle.status = ConversationStatus.idle ∧
      (⟨false, none⟩ : StartEnv).apiKeySet = false ∧
      fullHeld.status = ConversationStatus.listening ∧
      fullHeld.transcript = [{ speaker := Speaker.user, text := "x" }]) ∧
    ((onerror fullHeld "boom").error = some ("Connection error: " ++ "boom") ∧
      (onerror fullHeld "boom").status = ConversationStatus.idle ∧
      (onerror fullHeld "boom").transcript =
        [{ speaker := Speaker.user, text := "x" }]) :=
  ⟨⟨rfl, rfl, rfl, rfl⟩,
   ⟨(abort_surfaces_error fullHeld exampleIdle "boom" ⟨false, none⟩ rfl rfl).1,
    (abort_surfaces_error fullHeld exampleIdle "boom" ⟨false, none⟩ rfl rfl).2.1,
    (abort_surfaces_error fullHeld exampleIdle "boom" ⟨false, none⟩ rfl rfl).2.2.1⟩⟩

/-! ### Codec lemmas -/

/-- Looking a base64 digit back up recovers its 6-bit value. -/
theorem charToVal_valToChar : ∀ v : ℕ, v < 64 → charToVal (valToChar v) = some v := by
  decide

/-- No base64 digit is the padding character. -/
theorem valToChar_ne_pad : ∀ v : ℕ, v < 64 → valToChar v ≠ '=' := by
  decide

/-- Base64 decoding inverts base64 encoding on byte sequences. -/
theorem b64_roundtrip (bs : List ℕ) (hb : ∀ b ∈ bs, b < 256) :
    decodeChunks (encodeChunks bs) = some bs := by
  induction bs using encodeChunks.induct with
  | case1 => rfl
  | case2 a =>
    have ha : a < 256 := hb a (by simp)
    have h1 := charToVal_valToChar (a / 4) (by omega)
    have h2 := charToVal_valToChar (a % 4 * 16) (by omega)
    simp only [encodeChunks, decodeChunks, h1, h2]
    simp only [if_pos rfl, List.isEmpty_nil, if_true]
    have : a / 4 * 4 + a % 4 * 16 / 16 = a := by omega
    rw [this]
  | case3 a b =>
    have ha : a < 256 := hb a (by simp)
    have hbb : b < 256 := hb b (by simp)
    have h1 := charToVal_valToChar (a / 4) (by omega)
    have h2 := charToVal_valToChar (a % 4 * 16 + b / 16) (by omega)
    have h3 := charToVal_valToChar (b % 16 * 4) (by omega)
    have hne := valToChar_ne_pad (b % 16 * 4) (by omega)
    simp only [encodeChunks, decodeChunks, h1, h2, h3]
    rw [if_neg hne]
    simp only [if_pos rfl, List.isEmpty_nil, if_true]
    have e1 : a / 4 * 4 + (a % 4 * 16 + b / 16) / 16 = a := by omega
    have e2 : (a % 4 * 16 + b / 16) % 16 * 16 + b % 16 * 4 / 4 = b := by omega
    rw [e1, e2]
  | case4 a b c rest ih =>
    have ha : a < 256 := hb a (by simp)
    have hbb : b < 256 := hb b (by simp)
    have hc : c < 256 := hb c (by simp)
    have hrest : ∀ x ∈ rest, x < 256 := fun x hx => hb x (by simp [hx])
    have h1 := charToVal_valToChar (a / 4) (by omega)
    have h2 := charToVal_valToChar (a % 4 * 16 + b / 16) (by omega)
    have h3 := charToVal_valToChar (b % 16 * 4 + c / 64) (by omega)
    have h4 := charToVal_valToChar (c % 64) (by omega)
    have hne3 := valToChar_ne_pad (b % 16 * 4 + c / 64) (by omega)
    have hne4 := valToChar_ne_pad (c % 64) (by omega)
    simp only [encodeChunks, decodeChunks, h1, h2, h3, h4]
    rw [if_neg hne3, if_neg hne4]
    rw [ih hrest]
    have e1 : a / 4 * 4 + (a % 4 * 16 + b / 16) / 16 = a := by omega
    have e2 : (a % 4 * 16 + b / 16) % 16 * 16 + (b % 16 * 4 + c / 64) / 4 = b := by
      omega
    have e3 : (b % 16 * 4 + c / 64) % 4 * 64 + c % 64 = c := by omega
    rw [e1, e2, e3]

/-- Every byte emitted by the 16-bit packer is below 256. -/
theorem int16ToBytes_mem_lt (q : ℤ) : ∀ b ∈ int16ToBytes q, b < 256 := by
  intro b hbm
  unfold int16ToBytes at hbm
  have h0 : (q % 65536).toNat < 65536 := by omega
  simp only [List.mem_cons, List.mem_singleton] at hbm
  rcases hbm with h | h
  · omega
  · rcases h with h | h
    · omega
    · simp at h

/-- Unpacking the two little-endian bytes of an in-range signed 16-bit
value recovers it. -/
theorem bytesToInt16_int16ToBytes (q : ℤ) (h1 : -32768 ≤ q) (h2 : q ≤ 32767) :
    bytesToInt16 ((q % 65536).toNat % 256) ((q % 65536).toNat / 256) = q := by
  unfold bytesToInt16
  split <;> omega

/-- The quantizer always lands in the signed 16-bit range. -/
theorem quantize_mem (x : ℚ) : -32768 ≤ quantize x ∧ quantize x ≤ 32767 := by
  unfold quantize
  omega

/-- Rounding is monotone. -/
theorem round_mono_rat (a b : ℚ) (hab : a ≤ b) : round a ≤ round b := by
  rw [round_eq, round_eq]
  exact Int.floor_le_floor (by linarith)

/-- On in-range samples the clamp of the quantizer is inert. -/
theorem quantize_eq_round (x : ℚ) (h1 : -1 ≤ x) (h2 : x ≤ 1) :
    quantize x = round (x * 32767) := by
  have hub : round (x * 32767) ≤ 32767 := by
    have h := round_mono_rat (x * 32767) (((32767 : ℤ) : ℚ)) (by push_cast; nlinarith)
    rwa [round_intCast] at h
  have hlb : (-32767 : ℤ) ≤ round (x * 32767) := by
    have h := round_mono_rat (((-32767 : ℤ) : ℚ)) (x * 32767) (by push_cast; nlinarith)
    rwa [round_intCast] at h
  unfold quantize
  omega

/-- Dequantizing the quantized sample stays within 1.5 quantization steps
of the original: the encoder scales by 32767 and rounds, the decoder
divides by 32768, so the error is at most `(1/2 + 1)/32768`. -/
theorem quantize_err (x : ℚ) (h1 : -1 ≤ x) (h2 : x ≤ 1) :
    |((quantize x : ℚ)) / 32768 - x| ≤ 3 / 65536 := by
  rw [quantize_eq_round x h1 h2]
  have habs : |x * 32767 - ((round (x * 32767) : ℤ) : ℚ)| ≤ 1 / 2 :=
    abs_sub_round (x * 32767)
  have hx : |x| ≤ 1 := abs_le.mpr ⟨h1, h2⟩
  have hsplit : ((round (x * 32767) : ℤ) : ℚ) / 32768 - x =
      ((((round (x * 32767) : ℤ) : ℚ) - x * 32767) - x) / 32768 := by
    ring
  rw [hsplit, abs_div, abs_of_pos (show (0 : ℚ) < 32768 by norm_num)]
  rw [div_le_iff₀ (show (0 : ℚ) < 32768 by norm_num)]
  have htri : |(((round (x * 32767) : ℤ) : ℚ) - x * 32767) - x| ≤
      |((round (x * 32767) : ℤ) : ℚ) - x * 32767| + |x| := by
    calc |(((round (x * 32767) : ℤ) : ℚ) - x * 32767) - x|
        = |(((round (x * 32767) : ℤ) : ℚ) - x * 32767) + (-x)| := by ring_nf
      _ ≤ |((round (x * 32767) : ℤ) : ℚ) - x * 32767| + |(-x)| := abs_add _ _
      _ = |((round (x * 32767) : ℤ) : ℚ) - x * 32767| + |x| := by rw [abs_neg]
  have hcomm : |((round (x * 32767) : ℤ) : ℚ) - x * 32767| ≤ 1 / 2 := by
    rwa [abs_sub_comm] at habs
  nlinarith

/-- The packed byte stream of a sample list has twice its length. -/
theorem flatMap_int16_length (samples : List ℚ) :
    (samples.flatMap (fun x => int16ToBytes (quantize x))).length =
      2 * samples.length := by
  induction samples with
  | nil => rfl
  | cons x xs ih =>
    have h2 : (int16ToBytes (quantize x)).length = 2 := rfl
    simp only [List.flatMap_cons, List.length_append, ih, h2, List.length_cons]
    omega

/-- All bytes of the packed stream are below 256. -/
theorem flatMap_int16_lt (samples : List ℚ) :
    ∀ b ∈ samples.flatMap (fun x => int16ToBytes (quantize x)), b < 256 := by
  intro b hbm
  rw [List.mem_flatMap] at hbm
  obtain ⟨x, _, hbx⟩ := hbm
  exact int16ToBytes_mem_lt (quantize x) b hbx

/-- One packed sample at the head of a byte stream decodes to its 16-bit
value over 32768 followed by the decode of the rest. -/
theorem pairsToSamples_int16_cons (q : ℤ) (L : List ℕ) :
    pairsToSamples (int16ToBytes q ++ L) =
      ((bytesToInt16 ((q % 65536).toNat % 256) ((q % 65536).toNat / 256) : ℚ) /
          32768) :: pairsToSamples L := rfl

/-- Reading the packed stream back as 16-bit samples recovers each
quantized value divided by 32768. -/
theorem pairsToSamples_flatMap (samples : List ℚ) :
    pairsToSamples (samples.flatMap (fun x => int16ToBytes (quantize x))) =
      samples.map (fun x => ((quantize x : ℚ)) / 32768) := by
  induction samples with
  | nil => rfl
  | cons x xs ih =>
    obtain ⟨hl, hr⟩ := quantize_mem x
    rw [List.flatMap_cons, pairsToSamples_int16_cons,
      bytesToInt16_int16ToBytes (quantize x) hl hr, ih, List.map_cons]

/-- The whole pipeline in closed form: the round trip always succeeds and
returns each sample quantized and divided by 32768. -/
theorem roundTrip_eq (s : List ℚ) :
    roundTrip s = some (s.map fun x => ((quantize x : ℚ)) / 32768) := by
  have hdec : decode (encode s) =
      some (s.flatMap (fun x => int16ToBytes (quantize x))) := by
    unfold decode encode b64decode b64encode
    exact b64_roundtrip _ (flatMap_int16_lt s)
  have hdad : decodeAudioData (s.flatMap (fun x => int16ToBytes (quantize x)))
      24000 1 = Except.ok (s.map fun x => ((quantize x : ℚ)) / 32768) := by
    unfold decodeAudioData
    rw [if_pos (by rw [flatMap_int16_length]; omega), pairsToSamples_flatMap s]
  unfold roundTrip
  simp only [hdec, hdad]

/-- In-bounds `getD` over a map. -/
theorem getD_map_lt (f : ℚ → ℚ) :
    ∀ (s : List ℚ) (i : ℕ), i < s.length → (s.map f).getD i 0 = f (s.getD i 0) := by
  intro s
  induction s with
  | nil => intro i hi; simp at hi
  | cons x xs ih =>
    intro i hi
    cases i with
    | zero => rfl
    | succ j => simpa [List.getD_cons_succ] using ih j (by simpa using hi)

/-- In-bounds `getD` is a member. -/
theorem getD_mem_lt : ∀ (s : List ℚ) (i : ℕ), i < s.length → s.getD i 0 ∈ s := by
  intro s
  induction s with
  | nil => intro i hi; simp at hi
  | cons x xs ih =>
    intro i hi
    cases i with
    | zero => simp
    | succ j =>
      simp only [List.getD_cons_succ, List.mem_cons]
      exact Or.inr (ih j (by simpa using hi))

/-! ### Claim C9 -/

/-- C9 is refuted at the sample 0.99: the encoder multiplies by 32767 but
the decoder divides by 32768, so the reconstructed sample 32439/32768
misses 99/100 by 33/819200, which exceeds the claimed bound 1/32768
(= 25/819200). -/
theorem pcm_roundTrip_counterexample :
    roundTrip [(99 : ℚ) / 100] = some [(32439 : ℚ) / 32768] ∧
    ¬ |(32439 : ℚ) / 32768 - 99 / 100| ≤ 1 / 32768 := by
  have hq : quantize ((99 : ℚ) / 100) = 32439 := by
    have hr : round ((99 : ℚ) / 100 * 32767) = 32439 := by
      rw [round_eq]
      have he : (99 : ℚ) / 100 * 32767 + 1 / 2 = 3243983 / 100 := by norm_num
      rw [he, Int.floor_eq_iff]
      constructor
      · norm_num
      · norm_num
    unfold quantize
    rw [hr]
    omega
  constructor
  · rw [roundTrip_eq]
    simp only [List.map_cons, List.map_nil, hq]
    norm_num
  · have he : (32439 : ℚ) / 32768 - 99 / 100 = -(33 / 819200) := by norm_num
    rw [he, abs_neg, abs_of_pos (show (0 : ℚ) < 33 / 819200 by norm_num)]
    norm_num

/-- C9 (amended): for every sample sequence with values in [-1, 1], the
decode of the encode succeeds with a sequence of the same length whose
samples each differ from the originals by at most 3/65536 — one and a half
quantization steps, the extra half step coming from the 32767/32768 scale
mismatch between encoder and decoder. -/
theorem pcm_roundTrip_bound (s : List ℚ) (h : ∀ x ∈ s, -1 ≤ x ∧ x ≤ 1) :
    ∃ out : List ℚ, roundTrip s = some out ∧ out.length = s.length ∧
      ∀ i : ℕ, i < s.length → |out.getD i 0 - s.getD i 0| ≤ 3 / 65536 := by
  refine ⟨s.map (fun x => ((quantize x : ℚ)) / 32768), roundTrip_eq s, by simp, ?_⟩
  intro i hi
  rw [getD_map_lt _ s i hi]
  obtain ⟨hl, hr⟩ := h (s.getD i 0) (getD_mem_lt s i hi)
  exact quantize_err (s.getD i 0) hl hr

/-- Witness for C9 (amended): the singleton sequence [1/2] is in range and
round-trips within the bound. -/
theorem pcm_roundTrip_bound_witness :
    (∀ x ∈ [(1 : ℚ) / 2], -1 ≤ x ∧ x ≤ 1) ∧
    (∃ out : List ℚ, roundTrip [(1 : ℚ) / 2] = some out ∧
      out.length = ([(1 : ℚ) / 2] : List ℚ).length ∧
      ∀ i : ℕ, i < ([(1 : ℚ) / 2] : List ℚ).length →
        |out.getD i 0 - ([(1 : ℚ) / 2] : List ℚ).getD i 0| ≤ 3 / 65536) :=
  ⟨by rintro x hx; fin_cases hx; norm_num,
   pcm_roundTrip_bound [(1 : ℚ) / 2]
     (by rintro x hx; fin_cases hx; norm_num)⟩

end VoiceChat
